import Mathlib

/-!
Verification development for the quorum debate backend.

Shallow embedding of the core pure logic of:
  backend/app/utils/token_counter.py        (TokenCounter)
  backend/app/services/contradiction_service.py (ContradictionService.classify_severity)
  backend/app/services/context_manager.py   (ContextManager._truncate_context)
  backend/app/services/loop_detection_service.py (LoopDetectionService)
  backend/app/services/health_scoring_service.py (HealthScoringService.calculate_progress)
  backend/app/services/sequential_debate_service.py (SequentialDebateService)
  backend/app/models/debate_v2.py           (DebateV2 and friends)

Floating-point numbers of the source are modelled as rationals; external
capabilities (tiktoken encoders, LLM completions, embeddings, the SQL store)
are modelled as explicit parameters or oracle records, while everything the
repository itself computes is translated directly.
-/

namespace Quorum

/-! ## Token Accountant (backend/app/utils/token_counter.py) -/

/-- `TokenCounter.count_tokens`, fallback branch (line 80): when the per-model
encoder cannot be acquired the source returns `len(text) // 4`
(Python floor division). The primary branch delegates to the external
tiktoken encoder and is not modelled. -/
def fallbackCountTokens (text : String) : Nat :=
  text.length / 4

/-- `TokenCounter.count_message_tokens`, fallback branch (lines 108-110):
sum of per-content fallback counts plus `len(messages) * 4`. -/
structure ChatMessage where
  role : String
  content : String
deriving DecidableEq

def fallbackCountMessageTokens (messages : List ChatMessage) : Nat :=
  (messages.map (fun m => fallbackCountTokens m.content)).sum + messages.length * 4

/-- `TokenCounter.get_cost_warning_level` (lines 167-187).  The float
literals 0.5, 0.75, 1.5 are exact binary fractions, so the rational
translation is exact. -/
def getCostWarningLevel (cost threshold : ℚ) : String :=
  if cost < threshold * (1/2) then "none"
  else if cost < threshold * (3/4) then "low"
  else if cost < threshold then "medium"
  else if cost < threshold * (3/2) then "high"
  else "critical"

/-! ## Contradiction severity (backend/app/services/contradiction_service.py) -/

/-- Character-list prefix test (Python `str.startswith` on char lists),
helper for the substring test below. -/
def startsWithChars : List Char → List Char → Bool
  | [], _ => true
  | _ :: _, [] => false
  | a :: as, b :: bs => a == b && startsWithChars as bs

/-- Contiguous-substring test: Python `needle in hay`. -/
def containsChars (needle : List Char) : List Char → Bool
  | [] => startsWithChars needle []
  | b :: bs => startsWithChars needle (b :: bs) || containsChars needle bs

/-- Python `needle in hay` on strings. -/
def strContains (hay needle : String) : Bool :=
  containsChars needle.data hay.data

/-- Python `str.lower()`, modelled character-wise (ASCII-equivalent to the
source behaviour on the fixed phrase set). -/
def strLower (text : String) : String :=
  String.mk (text.data.map Char.toLower)

/-- The fixed strong-indicator phrase list of
`ContradictionService.classify_severity` (lines 253-259). -/
def strongIndicators : List String :=
  [ "directly contradicts",
    "completely opposite",
    "mutually exclusive",
    "impossible",
    "logically inconsistent" ]

/-- `any(indicator in explanation.lower() for indicator in strong_indicators)`
(line 261). -/
def containsStrongIndicator (explanation : String) : Bool :=
  strongIndicators.any (fun indicator => strContains (strLower explanation) indicator)

/-- `ContradictionService.classify_severity` (lines 231-267). -/
def classifySeverity (similarityScore : ℚ) (explanation : String) : String :=
  if 9/10 ≤ similarityScore then "high"
  else if 85/100 ≤ similarityScore then
    if containsStrongIndicator explanation then "high" else "medium"
  else "low"

/-! ## Context Assembler (backend/app/services/context_manager.py) -/

/-- `ContextManager.max_context_tokens` (line 16). -/
def maxContextTokens : Nat := 100000

/-- The `while middle_messages:` loop of `ContextManager._truncate_context`
(lines 130-146), recursing on the middle (transcript) messages.  Popping
index 0 of the middle list is the structural recursion here.  When the
middle is exhausted the source returns `[system_msg, current_prompt]`
together with its token count, regardless of whether that count is under
the limit.  The token counter is a parameter: the source delegates to
`token_counter.count_message_tokens`, whose primary branch calls the
external tiktoken encoder. -/
def truncateMiddle (count : List ChatMessage → Nat) (maxTokens : Nat)
    (systemMsg currentPrompt : ChatMessage) : List ChatMessage → List ChatMessage × Nat
  | [] => ([systemMsg, currentPrompt], count [systemMsg, currentPrompt])
  | m :: rest =>
      let truncated := systemMsg :: (m :: rest ++ [currentPrompt])
      let tokenCount := count truncated
      if tokenCount ≤ maxTokens then (truncated, tokenCount)
      else truncateMiddle count maxTokens systemMsg currentPrompt rest

/-- `ContextManager._truncate_context` (lines 108-146): keep the first
(system) and last (current prompt) messages, drop middle messages from the
oldest end.  Lists of length ≤ 2 are returned unchanged (lines 119-122). -/
def truncateContext (count : List ChatMessage → Nat) (maxTokens : Nat)
    (messages : List ChatMessage) : List ChatMessage × Nat :=
  if messages.length ≤ 2 then (messages, count messages)
  else
    match messages with
    | [] => ([], count [])
    | systemMsg :: rest =>
        truncateMiddle count maxTokens systemMsg (rest.getLastD systemMsg) rest.dropLast

/-! ## Debate V2 data model (backend/app/models/debate_v2.py) -/

/-- `DebateStatusV2` (lines 90-97). -/
inductive DebateStatus
  | initialized
  | running
  | paused
  | stopped
  | completed
  | error
deriving DecidableEq

/-- `ParticipantConfigV2` (lines 11-29). -/
structure Participant where
  name : String
  model : String
  system_prompt : String
  temperature : ℚ
deriving DecidableEq

/-- `DebateConfigV2` (lines 32-47). -/
structure DebateConfig where
  topic : String
  participants : List Participant
  max_rounds : Nat
  context_window_rounds : Nat
  cost_warning_threshold : ℚ
deriving DecidableEq

/-- `ParticipantResponse` (lines 70-78); the wall-clock timestamp is ambient
and omitted. -/
structure ParticipantResponse where
  participant_name : String
  participant_index : Nat
  model : String
  content : String
  tokens_used : Nat
  response_time_ms : ℚ
deriving DecidableEq

/-- `DebateRoundV2` (lines 81-87); timestamp omitted as above.  The
`tokens_used` dict is an insertion-ordered association list, as in Python. -/
structure DebateRound where
  round_number : Nat
  responses : List ParticipantResponse
  tokens_used : List (String × Nat)
  cost_estimate : ℚ
deriving DecidableEq

/-- `DebateV2` (lines 100-150); `created_at`/`updated_at` are ambient
wall-clock values and omitted. -/
structure Debate where
  id : String
  config : DebateConfig
  status : DebateStatus
  rounds : List DebateRound
  current_round : Nat
  current_turn : Nat
  total_tokens : List (String × Nat)
  total_cost : ℚ
  stopped_manually : Bool
deriving DecidableEq

/-- `DebateV2.is_debate_complete` (lines 133-139). -/
def isDebateComplete (d : Debate) : Bool :=
  d.stopped_manually
    || decide (d.config.max_rounds < d.current_round)
    || decide (d.status = .completed ∨ d.status = .stopped ∨ d.status = .error)

/-- The turn-advance arithmetic shared by `DebateV2.advance_turn`
(lines 118-124) and the inlined copy in
`SequentialDebateService.get_next_turn_response` (lines 359-365):
`next_turn = current_turn + 1; if next_turn >= P: next_turn, next_round = 0,
current_round + 1`.  Returns `(next_turn, next_round)`. -/
def advanceTurnPointers (currentTurn currentRound participantCount : Nat) : Nat × Nat :=
  let nextTurn := currentTurn + 1
  if participantCount ≤ nextTurn then (0, currentRound + 1) else (nextTurn, currentRound)

/-- Python dict update `if k not in m: m[k] = 0; m[k] += v` on an
insertion-ordered association list (lines 342-348 of the service). -/
def updateAdd : List (String × Nat) → String → Nat → List (String × Nat)
  | [], k, v => [(k, v)]
  | (k0, v0) :: rest, k, v =>
      if k0 = k then (k0, v0 + v) :: rest else (k0, v0) :: updateAdd rest k v

/-- `SequentialDebateService.create_debate` (lines 42-75); the generated
uuid-based id is an ambient input. -/
def createDebate (id : String) (config : DebateConfig) : Debate :=
  { id := id
    config := config
    status := .initialized
    rounds := [{ round_number := 1, responses := [], tokens_used := [], cost_estimate := 0 }]
    current_round := 1
    current_turn := 0
    total_tokens := []
    total_cost := 0
    stopped_manually := false }

/-! ## Debate registry operations (backend/app/services/sequential_debate_service.py) -/

/-- The in-memory registry `self.debates : Dict[str, DebateV2]` modelled as
an insertion-ordered association list. -/
def lookupDebate : List (String × Debate) → String → Option Debate
  | [], _ => none
  | (k, d) :: rest, id => if k = id then some d else lookupDebate rest id

/-- Python dict assignment `self.debates[debate_id] = debate`. -/
def setDebate : List (String × Debate) → String → Debate → List (String × Debate)
  | [], id, d => [(id, d)]
  | (k, d0) :: rest, id, d =>
      if k = id then (k, d) :: rest else (k, d0) :: setDebate rest id d

/-- `SequentialDebateService.pause_debate` (lines 106-117): look the debate
up; raise `ValueError` when absent; otherwise set `status = PAUSED`
unconditionally (the source performs no check of the prior status) and
publish the update.  The mutated registry and the returned debate are both
produced. -/
def pauseDebate (debates : List (String × Debate)) (debateId : String) :
    Except String (List (String × Debate) × Debate) :=
  match lookupDebate debates debateId with
  | none => .error ("Debate " ++ debateId ++ " not found")
  | some debate =>
      let paused := { debate with status := DebateStatus.paused }
      .ok (setDebate debates debateId paused, paused)

/-! ## The NextTurn event stream (get_next_turn_response, lines 185-662)

The generator is modelled as a pure function from the pre-call debate
snapshot and a `TurnOracle` (carrying every externally produced value:
LLM outcome, token counts from the tiktoken-backed counter, the estimated
cost, and the events produced by the external quality services) to a
*trace*: the ordered list of observable actions the invocation performs.
`emit` is a `yield`, `commit` is a write of the debate object published
under `self.debates[debate_id]` (both in-place mutation of the registered
object and the wholesale replacement at line 387), `insertMessage` is the
quality-pipeline insert into the `messages` table, and `raise` is an
uncaught exception. -/

/-- `SequentialTurnEvent`s, with the `data` payload fields the source puts
in each event.  The two `debate_complete` variants of the source (early
return at lines 206-219 and final completion at lines 650-661) carry
different data keys, hence the two `Option` fields. -/
inductive DebateEvent
  | debateStart (roundNumber turnIndex : Nat) (topic : String)
      (participantNames : List String) (maxRounds : Nat)
  | participantStart (roundNumber turnIndex : Nat) (participantName : String)
      (participantIndex : Nat) (model : String)
  | chunk (roundNumber turnIndex : Nat) (text : String) (participantName : String)
  | participantComplete (roundNumber turnIndex : Nat) (participantName : String)
      (tokensUsed : Nat) (cost : ℚ) (responseTimeMs : ℚ)
  | qualityUpdate (roundNumber turnIndex : Nat) (payload : String)
  | costUpdate (roundNumber turnIndex : Nat) (totalCost roundCost warningThreshold : ℚ)
  | roundComplete (roundNumber turnIndex : Nat) (completedRound responsesCount : Nat)
      (roundCost : ℚ)
  | roundStart (roundNumber turnIndex : Nat) (newRound maxRounds : Nat)
  | debateComplete (roundNumber turnIndex : Nat) (message : String)
      (roundsCompleted : Nat) (stoppedManually : Option Bool) (totalCost : Option ℚ)
  | errorEvent (roundNumber turnIndex : Nat) (message : String) (nonCritical : Bool)
deriving DecidableEq

/-- A row of the `messages` table as inserted by the quality pipeline
(lines 435-448); database-generated fields and the uuid-based id are
ambient and omitted. -/
structure MessageRow where
  conversation_id : String
  agent_name : String
  agent_model : String
  content : String
  sequence_number : Nat
  round_number : Nat
  turn_index : Nat
  tokens_used : Nat
deriving DecidableEq

inductive TurnAction
  | emit (e : DebateEvent)
  | commit (d : Debate)
  | insertMessage (m : MessageRow)
  | raise
deriving DecidableEq

deriving instance DecidableEq for Except

/-- All values of one `get_next_turn_response` invocation that are produced
by external capabilities: the LLM completion (`.error` = provider
exception), the chunk deltas relayed as `chunk` events, the tiktoken-backed
token counts, the estimated cost, whether the quality-pipeline store commit
of the Message row succeeds, and the `quality_update` events produced by
the contradiction / loop / health services. -/
structure TurnOracle where
  llmOutcome : Except String String
  chunkTexts : List String
  inputTokens : Nat
  outputTokens : Nat
  responseTimeMs : ℚ
  cost : ℚ
  pipelineInsertOk : Bool
  qualityEvents : List DebateEvent
deriving DecidableEq

/-- `SequentialDebateService.get_next_turn_response` (lines 185-662) as a
trace of actions.  Control flow follows the source line by line:

* lines 205-219: terminal / stopped debates emit one `debate_complete`
  and then overwrite `status` in the registry object;
* lines 221-234: `Initialized` transitions to `Running` (a registry
  mutation) before `debate_start` is emitted;
* lines 236-254: participant selection (an out-of-range `current_turn`
  raises) and `participant_start`;
* lines 256-319: chunk relay; a provider error emits `error` and then sets
  `status = ERROR`;
* lines 321-351: the response is appended and the token/cost tallies
  updated in place on the registered object (one commit of the net effect,
  no yield occurs in between);
* lines 353-392: the turn/round pointers are advanced and the rebuilt
  debate object replaces the registry entry — before `participant_complete`
  is emitted (lines 394-406);
* lines 408-603: the quality pipeline inserts the Message row with
  `sequence_number = sum(len(r.responses) for r in debate.rounds)` computed
  over the *advanced* debate (line 433) and relays the externally produced
  quality events; a pipeline failure yields a single non-critical `error`;
* lines 605-662: `cost_update`, then `round_complete` / `round_start` when
  the round wrapped, then the final `debate_complete` plus the
  `status = COMPLETED` mutation when the debate is now complete. -/
def nextTurnTrace (d : Debate) (o : TurnOracle) : List TurnAction :=
  if isDebateComplete d then
    [ .emit (.debateComplete d.current_round d.current_turn "Debate is complete"
        d.rounds.length (some d.stopped_manually) none),
      .commit { d with status := if d.stopped_manually then .stopped else .completed } ]
  else
    let startActions : List TurnAction :=
      if d.status = .initialized then
        [ .commit { d with status := .running },
          .emit (.debateStart d.current_round 0 d.config.topic
            (d.config.participants.map Participant.name) d.config.max_rounds) ]
      else []
    -- d0 is the registered object after the (possible) Initialized→Running
    -- write; it differs from d only in `status`, so the projections below
    -- are taken from d directly.
    let d0 : Debate := if d.status = .initialized then { d with status := .running } else d
    match d.config.participants[d.current_turn]? with
    | none => startActions ++ [.raise]
    | some participant =>
      let r := d.current_round
      let t := d.current_turn
      let startEv := TurnAction.emit (.participantStart r t participant.name t participant.model)
      let chunkActions := o.chunkTexts.map
        (fun text => TurnAction.emit (.chunk r t text participant.name))
      match o.llmOutcome with
      | .error errText =>
          startActions ++ [startEv] ++ chunkActions
            ++ [ .emit (.errorEvent r t errText false),
                 .commit { d0 with status := .error } ]
      | .ok content =>
        match d.rounds[r - 1]? with
        | none => startActions ++ [startEv] ++ chunkActions ++ [.raise]
        | some currentRound =>
          let totalTokens := o.inputTokens + o.outputTokens
          let response : ParticipantResponse :=
            { participant_name := participant.name
              participant_index := t
              model := participant.model
              content := content
              tokens_used := totalTokens
              response_time_ms := o.responseTimeMs }
          let roundA : DebateRound :=
            { currentRound with
                responses := currentRound.responses ++ [response]
                tokens_used := updateAdd currentRound.tokens_used participant.model totalTokens
                cost_estimate := currentRound.cost_estimate + o.cost }
          let dA : Debate :=
            { d0 with
                rounds := d0.rounds.set (r - 1) roundA
                total_tokens := updateAdd d0.total_tokens participant.model totalTokens
                total_cost := d0.total_cost + o.cost }
          let nextPointers := advanceTurnPointers t r d.config.participants.length
          let newRounds :=
            if r < nextPointers.2 then
              dA.rounds ++ [{ round_number := nextPointers.2, responses := []
                              tokens_used := [], cost_estimate := 0 }]
            else dA.rounds
          let dAdv : Debate :=
            { dA with current_turn := nextPointers.1, current_round := nextPointers.2
                      rounds := newRounds }
          let completeEv := TurnAction.emit
            (.participantComplete r t participant.name totalTokens o.cost o.responseTimeMs)
          let seqNum := (dAdv.rounds.map (fun rr => rr.responses.length)).sum
          let messageRow : MessageRow :=
            { conversation_id := d.id
              agent_name := participant.name
              agent_model := participant.model
              content := content
              sequence_number := seqNum
              round_number := r
              turn_index := t
              tokens_used := totalTokens }
          let qualityActions : List TurnAction :=
            if o.pipelineInsertOk then
              .insertMessage messageRow :: o.qualityEvents.map TurnAction.emit
            else
              [ .emit (.errorEvent r t "Quality check error" true) ]
          match dAdv.rounds[r - 1]? with
          | none =>
              startActions ++ [startEv] ++ chunkActions
                ++ [.commit dA, .commit dAdv, completeEv] ++ qualityActions ++ [.raise]
          | some roundRef =>
            let costEv := TurnAction.emit
              (.costUpdate r t dAdv.total_cost roundRef.cost_estimate
                d.config.cost_warning_threshold)
            let roundEvents : List TurnAction :=
              if dAdv.current_turn = 0 ∧ r < dAdv.current_round then
                [ .emit (.roundComplete r 0 r roundRef.responses.length roundRef.cost_estimate) ]
                  ++ (if isDebateComplete dAdv then []
                      else [ .emit (.roundStart dAdv.current_round 0 dAdv.current_round
                               d.config.max_rounds) ])
              else []
            let finalEvents : List TurnAction :=
              if isDebateComplete dAdv then
                [ .emit (.debateComplete dAdv.current_round 0 "Debate completed all rounds"
                    dAdv.rounds.length none (some dAdv.total_cost)),
                  .commit { dAdv with status := .completed } ]
              else []
            startActions ++ [startEv] ++ chunkActions
              ++ [.commit dA, .commit dAdv, completeEv]
              ++ qualityActions ++ [costEv] ++ roundEvents ++ finalEvents

/-- The registry entry after replaying the commits of a trace over the
initial snapshot. -/
def registryAfter (init : Debate) (trace : List TurnAction) : Debate :=
  trace.foldl (fun acc a => match a with | .commit d => d | _ => acc) init

def isParticipantCompleteEmit : TurnAction → Bool
  | .emit (.participantComplete _ _ _ _ _ _) => true
  | _ => false

/-- The registry entry a subscriber that closes on `participant_complete`
observes: the state after all commits that precede the first
`participant_complete` emission. -/
def registryAtParticipantComplete (init : Debate) (trace : List TurnAction) : Debate :=
  registryAfter init (trace.takeWhile (fun a => !isParticipantCompleteEmit a))

def containsParticipantComplete (trace : List TurnAction) : Bool :=
  trace.any isParticipantCompleteEmit

/-- The Message rows a trace inserts, in order. -/
def insertedMessages (trace : List TurnAction) : List MessageRow :=
  trace.filterMap (fun a => match a with | .insertMessage m => some m | _ => none)

/-- The events a trace emits, in order. -/
def emittedEvents (trace : List TurnAction) : List DebateEvent :=
  trace.filterMap (fun a => match a with | .emit e => some e | _ => none)

/-! ## V2 context builder (_build_context_for_participant, lines 135-183) -/

/-- `SequentialDebateService._build_context_for_participant`:
a system message from the participant prompt plus a single trailing user
message embedding the whole transcript.  (The literal quote characters of
two instruction lines are elided; only the message structure matters to
the theorems below.)  No truncation of any kind is applied on this path. -/
def buildContextForParticipant (d : Debate) (participant : Participant) : List ChatMessage :=
  let systemMsg : ChatMessage := { role := "system", content := participant.system_prompt }
  let userContentLines : List String :=
    [ "Topic: " ++ d.config.topic,
      "",
      "You are " ++ participant.name ++ ". Provide your next debate response.",
      "Be concise, reference earlier arguments when helpful, and continue the conversation naturally.",
      "",
      "IMPORTANT: Do NOT prefix your response with your name or Agent X:. Your response should start directly with your argument." ]
  let transcriptLines : List String :=
    d.rounds.flatMap (fun roundObj =>
      roundObj.responses.map (fun resp => resp.participant_name ++ ": " ++ resp.content))
  let allLines : List String :=
    if transcriptLines.isEmpty then userContentLines
    else
      userContentLines
        ++ ["", "Transcript so far:"] ++ transcriptLines
        ++ ["", "Consider the transcript above when crafting your response."]
  [systemMsg, { role := "user", content := String.intercalate "\n" allLines }]

/-! ## Loop Detector (backend/app/services/loop_detection_service.py) -/

/-- A recent-message dict with the keys loop detection reads
(`id`, `agent_name`, `content`). -/
structure QualityMessage where
  id : String
  agent_name : String
  content : String
deriving DecidableEq

/-- A row of the `conversation_loops` table (`_store_loop`, lines 289-345).
The source stores `sha256(pattern_string)` as the fingerprint; hashing is
kept abstract here by storing the pre-image `pattern_string` itself, which
affects no row-counting property. -/
structure LoopRow where
  conversation_id : String
  pattern : String
  pattern_fingerprint : String
  message_ids : List String
  repetition_count : Nat
  agents_involved : List String
  intervention_text : String
deriving DecidableEq

/-- `LoopDetectionService.create_pattern_fingerprint` (lines 203-226), up
to the final SHA-256 step: the normalised
`"{agent}:{content[:100].strip().lower()}"` parts joined by `"|"`. -/
def createPatternFingerprint (messages : List QualityMessage) : String :=
  String.intercalate "|"
    (messages.map (fun m => m.agent_name ++ ":" ++ (strLower (m.content.take 100).trim)))

/-- All `(start_index, pattern)` windows of a given length over the agent
sequence (lines 150-153). -/
def patternWindows (agentSequence : List String) (patternLength : Nat) :
    List (Nat × List String) :=
  (List.range (agentSequence.length - patternLength + 1)).map
    (fun i => (i, (agentSequence.drop i).take patternLength))

/-- First-occurrence de-duplication, as a Python `Counter` preserves
insertion order of keys. -/
def firstOccurrences : List (List String) → List (List String)
  | [] => []
  | p :: rest =>
      let tail := firstOccurrences rest
      if p ∈ tail then tail.eraseP (fun q => q == p) |> (p :: ·) else p :: tail

/-- Head of `Counter.most_common()` (line 159): the key with the maximal
count, earliest-inserted first on ties.  The loop body returns on the first
key whose count meets `min_repetitions`, and since `most_common` sorts by
count descending, that key is exactly this maximiser (when its count is
large enough). -/
def mostCommonPattern (patterns : List (List String)) : Option (List String × Nat) :=
  (firstOccurrences patterns).foldl
    (fun best key =>
      match best with
      | none => some (key, patterns.count key)
      | some (bestKey, bestCount) =>
          if bestCount < patterns.count key then some (key, patterns.count key)
          else some (bestKey, bestCount))
    none

/-- `LoopDetectionService._detect_pattern_repetition` (lines 125-201) minus
the store write, which `detectLoops` below performs.  `intervention` is the
external LLM intervention oracle (`generate_loop_intervention`), taking the
pattern string, the repetition count and the covered messages. -/
def detectPatternRepetition (conversationId : String) (messages : List QualityMessage)
    (agentSequence : List String) (patternLength : Nat)
    (intervention : String → Nat → List QualityMessage → String) : Option LoopRow :=
  if agentSequence.length < patternLength * 2 then none
  else
    let windows := patternWindows agentSequence patternLength
    match mostCommonPattern (windows.map Prod.snd) with
    | none => none
    | some (pattern, count) =>
        if 2 ≤ count then
          let patternStr := String.intercalate " -> " pattern
          let messageIds :=
            windows.flatMap (fun iw =>
              if iw.2 == pattern then
                (List.range patternLength).filterMap (fun offset =>
                  (messages[iw.1 + offset]?).map QualityMessage.id)
              else [])
          -- `list(set(pattern))`: the distinct agent names (Python set
          -- iteration order is unspecified; first occurrence is used here)
          let agentsInvolved := pattern.dedup
          let coveredMessages := messages.drop (messages.length - messageIds.length)
          some
            { conversation_id := conversationId
              pattern := patternStr
              pattern_fingerprint := createPatternFingerprint coveredMessages
              message_ids := messageIds
              repetition_count := count
              agents_involved := agentsInvolved
              intervention_text :=
                intervention patternStr count
                  (messages.filter (fun m => m.id ∈ messageIds)) }
        else none

/-- The candidate pattern lengths of `detect_loops` (lines 98-102):
`range(min(len(S)//2, 6), 1, -1)`, i.e. `min(len(S)//2, 6)` down to 2. -/
def candidateLengths (sequenceLength : Nat) : List Nat :=
  let start := min (sequenceLength / 2) 6
  (List.range (start - 1)).map (fun k => start - k)

/-- `LoopDetectionService.detect_loops` (lines 67-123) together with the
`_store_loop` insert: returns the new store contents and the detected loop
(if any).  Detection reads only `recent_messages`; the store is
write-only (append) here, exactly as in the source. -/
def detectLoops (conversationId : String) (recentMessages : List QualityMessage)
    (intervention : String → Nat → List QualityMessage → String)
    (store : List LoopRow) : List LoopRow × Option LoopRow :=
  if recentMessages.length < 2 * 2 then (store, none)
  else
    let agentSequence := recentMessages.map QualityMessage.agent_name
    match (candidateLengths agentSequence.length).findSome?
        (fun patternLength =>
          detectPatternRepetition conversationId recentMessages agentSequence
            patternLength intervention) with
    | some loop => (store ++ [loop], some loop)
    | none => (store, none)

/-! ## Health Scorer progress sub-score (health_scoring_service.py, lines 198-264) -/

/-- A recent-message dict with the keys `calculate_progress` reads. -/
structure HealthMessage where
  content : String
  agent_name : String
deriving DecidableEq

/-- Python `str.split()` (split on whitespace runs, empty parts
discarded), modelled by direct structural recursion over the character
list. -/
def splitWordsAux : List Char → List Char → List String
  | [], acc => if acc.isEmpty then [] else [String.mk acc.reverse]
  | c :: cs, acc =>
      if c.isWhitespace then
        if acc.isEmpty then splitWordsAux cs []
        else String.mk acc.reverse :: splitWordsAux cs []
      else splitWordsAux cs (c :: acc)

def splitWords (text : String) : List String :=
  splitWordsAux text.data []

/-- Square root on ℚ, exact on ratios of perfect squares (the only points
at which the theorems below evaluate it); the source applies the
floating-point `** 0.5`. -/
def ratSqrt (q : ℚ) : ℚ :=
  (Nat.sqrt q.num.toNat : ℚ) / (Nat.sqrt q.den : ℚ)

/-- Factor 1 of `calculate_progress` (lines 221-227): message length
progression. -/
def lengthFactor (messages : List HealthMessage) : ℚ :=
  let lengths : List ℚ := messages.map (fun m => (m.content.length : ℚ))
  let avgLength := lengths.sum / (lengths.length : ℚ)
  let variance := (lengths.map (fun l => (l - avgLength) ^ 2)).sum / (lengths.length : ℚ)
  min 100 (avgLength / 10 + ratSqrt variance / 5)

/-- Factor 2 of `calculate_progress` (lines 229-239): vocabulary
diversity. -/
def diversityFactor (messages : List HealthMessage) : ℚ :=
  let allWords := messages.flatMap (fun m => splitWords (strLower m.content))
  if allWords.isEmpty then 0
  else ((allWords.dedup.length : ℚ) / (allWords.length : ℚ)) * 100

/-- Factor 3 of `calculate_progress` (lines 241-244): agent participation.
The source computes `total_agents` from the same observed sample as
`unique_agents` (its own comment reads `# Could get from context`), so the
ratio is taken against the sample, not against the configured participant
list. -/
def participationFactor (messages : List HealthMessage) : ℚ :=
  let uniqueAgents := (messages.map HealthMessage.agent_name).dedup.length
  let totalAgents := (messages.map HealthMessage.agent_name).dedup.length
  min 100 (((uniqueAgents : ℚ) / (max 1 totalAgents : ℕ)) * 100)

/-- `HealthScoringService.calculate_progress` (lines 198-264): the weighted
0.3/0.4/0.3 combination, clamped to [0,100]; empty input returns 0. -/
def progressScore (messages : List HealthMessage) : ℚ :=
  if messages.isEmpty then 0
  else
    min 100 (max 0
      (lengthFactor messages * (3/10)
        + diversityFactor messages * (4/10)
        + participationFactor messages * (3/10)))

/-- Modelled from the claim wording (for comparison with the source):
participation measured against the *configured* participant count,
`clamp(|distinct_speakers_seen| / |configured_participants| × 100, 0, 100)`. -/
def participationFactorClaimed (messages : List HealthMessage)
    (configuredParticipants : Nat) : ℚ :=
  min 100 (max 0
    ((((messages.map HealthMessage.agent_name).dedup.length : ℚ)
        / (configuredParticipants : ℚ)) * 100))

/-- The progress sub-score as the claim states it: same weights, but with
the participation denominator taken from the debate configuration. -/
def progressScoreClaimed (messages : List HealthMessage)
    (configuredParticipants : Nat) : ℚ :=
  if messages.isEmpty then 0
  else
    min 100 (max 0
      (lengthFactor messages * (3/10)
        + diversityFactor messages * (4/10)
        + participationFactorClaimed messages configuredParticipants * (3/10)))

/-! ## Concrete fixtures used by witnesses and counterexamples -/

def participantA : Participant :=
  { name := "Agent 1", model := "gpt-4o", system_prompt := "You are a debater.",
    temperature := 7/10 }

def participantB : Participant :=
  { name := "Agent 2", model := "claude-3-5-sonnet-20241022",
    system_prompt := "You are a debater.", temperature := 7/10 }

def configTwo : DebateConfig :=
  { topic := "Should AI development be open source?"
    participants := [participantA, participantB]
    max_rounds := 3
    context_window_rounds := 10
    cost_warning_threshold := 1 }

def debateFresh : Debate := createDebate "debate_v2_fixture" configTwo

def oracleOk : TurnOracle :=
  { llmOutcome := .ok "Opening argument."
    chunkTexts := ["Opening argument."]
    inputTokens := 10
    outputTokens := 5
    responseTimeMs := 12
    cost := 1/1000
    pipelineInsertOk := true
    qualityEvents := [] }

/-- A debate that reached the `Error` state after a provider failure
(line 318 of the service), with `stopped_manually` still false. -/
def debateErrored : Debate := { debateFresh with status := DebateStatus.error }

def debateCompleted : Debate := { debateFresh with status := DebateStatus.completed }

def registryFixture : List (String × Debate) := [("debate_v2_fixture", debateFresh)]

/-- The registered object after the (possible) Initialized-to-Running
write: it differs from the pre-call snapshot only in `status`. -/
def runningDebate (d : Debate) : Debate :=
  if d.status = .initialized then { d with status := .running } else d

/-- The `ParticipantResponse` appended by a successful turn
(lines 327-334 of the service). -/
def turnResponse (o : TurnOracle) (participant : Participant) (t : Nat)
    (content : String) : ParticipantResponse :=
  { participant_name := participant.name
    participant_index := t
    model := participant.model
    content := content
    tokens_used := o.inputTokens + o.outputTokens
    response_time_ms := o.responseTimeMs }

/-- The current round after the response append and tally updates
(lines 336-350 of the service). -/
def appendedRound (o : TurnOracle) (participant : Participant) (t : Nat)
    (currentRound : DebateRound) (content : String) : DebateRound :=
  { currentRound with
      responses := currentRound.responses ++ [turnResponse o participant t content]
      tokens_used := updateAdd currentRound.tokens_used participant.model
        (o.inputTokens + o.outputTokens)
      cost_estimate := currentRound.cost_estimate + o.cost }

/-- The debate after the in-place response/tally mutations but before the
pointer advance (the registered object state at lines 336-351). -/
def talliedDebate (d : Debate) (o : TurnOracle) (participant : Participant)
    (currentRound : DebateRound) (content : String) : Debate :=
  { runningDebate d with
      rounds := (runningDebate d).rounds.set (d.current_round - 1)
        (appendedRound o participant d.current_turn currentRound content)
      total_tokens := updateAdd (runningDebate d).total_tokens participant.model
        (o.inputTokens + o.outputTokens)
      total_cost := (runningDebate d).total_cost + o.cost }

/-- The debate as committed just before `participant_complete` (the
replacement object of lines 367-388): pointers advanced, the response
appended, tallies updated, and a fresh empty round appended on wrap. -/
def advancedDebate (d : Debate) (o : TurnOracle) (participant : Participant)
    (currentRound : DebateRound) (content : String) : Debate :=
  let dA := talliedDebate d o participant currentRound content
  let nextPointers := advanceTurnPointers d.current_turn d.current_round
    d.config.participants.length
  let newRounds :=
    if d.current_round < nextPointers.2 then
      dA.rounds ++ [{ round_number := nextPointers.2, responses := []
                      tokens_used := [], cost_estimate := 0 }]
    else dA.rounds
  { dA with current_turn := nextPointers.1, current_round := nextPointers.2
            rounds := newRounds }

/-- The Message row persisted by the quality pipeline on a successful turn
(lines 432-448): its `sequence_number` is the response count of the
*advanced* debate. -/
def turnMessageRow (d : Debate) (o : TurnOracle) (participant : Participant)
    (currentRound : DebateRound) (content : String) : MessageRow :=
  { conversation_id := d.id
    agent_name := participant.name
    agent_model := participant.model
    content := content
    sequence_number :=
      ((advancedDebate d o participant currentRound content).rounds.map
        (fun rr => rr.responses.length)).sum
    round_number := d.current_round
    turn_index := d.current_turn
    tokens_used := o.inputTokens + o.outputTokens }

/-- Everything a successful turn does before `participant_complete` is
emitted: the optional Initialized→Running commit and `debate_start`,
`participant_start`, the chunk relays, and the two registry writes (tally
mutation, then pointer-advance replacement). -/
def successTracePre (d : Debate) (o : TurnOracle) (participant : Participant)
    (currentRound : DebateRound) (content : String) : List TurnAction :=
  (if d.status = .initialized then
    [ .commit { d with status := .running },
      .emit (.debateStart d.current_round 0 d.config.topic
        (d.config.participants.map Participant.name) d.config.max_rounds) ]
  else [])
  ++ [ .emit (.participantStart d.current_round d.current_turn participant.name
        d.current_turn participant.model) ]
  ++ o.chunkTexts.map
      (fun text => TurnAction.emit
        (.chunk d.current_round d.current_turn text participant.name))
  ++ [ .commit (talliedDebate d o participant currentRound content),
       .commit (advancedDebate d o participant currentRound content) ]

/-- Everything a successful turn does from `participant_complete` on:
the quality-pipeline actions, `cost_update`, the round-wrap events and the
final completion events. -/
def successTracePost (d : Debate) (o : TurnOracle) (participant : Participant)
    (currentRound : DebateRound) (content : String) : List TurnAction :=
  let dAdv := advancedDebate d o participant currentRound content
  let roundA := appendedRound o participant d.current_turn currentRound content
  (if o.pipelineInsertOk then
    TurnAction.insertMessage (turnMessageRow d o participant currentRound content)
      :: o.qualityEvents.map TurnAction.emit
  else
    [ .emit (.errorEvent d.current_round d.current_turn "Quality check error" true) ])
  ++ [ .emit (.costUpdate d.current_round d.current_turn dAdv.total_cost
        roundA.cost_estimate d.config.cost_warning_threshold) ]
  ++ (if dAdv.current_turn = 0 ∧ d.current_round < dAdv.current_round then
      [ .emit (.roundComplete d.current_round 0 d.current_round
          roundA.responses.length roundA.cost_estimate) ]
        ++ (if isDebateComplete dAdv then []
            else [ .emit (.roundStart dAdv.current_round 0 dAdv.current_round
                     d.config.max_rounds) ])
    else [])
  ++ (if isDebateComplete dAdv then
      [ .emit (.debateComplete dAdv.current_round 0 "Debate completed all rounds"
          dAdv.rounds.length none (some dAdv.total_cost)),
        .commit { dAdv with status := .completed } ]
    else [])

/-- The else-branch of `nextTurnTrace` with the three lookups resolved:
the current participant, the current round object, and the successful LLM
content are passed explicitly.  `nextTurnTrace_success` below proves that
under the corresponding hypotheses `nextTurnTrace` equals this trace. -/
def successTrace (d : Debate) (o : TurnOracle) (participant : Participant)
    (currentRound : DebateRound) (content : String) : List TurnAction :=
  successTracePre d o participant currentRound content
    ++ (TurnAction.emit (.participantComplete d.current_round d.current_turn
          participant.name (o.inputTokens + o.outputTokens) o.cost o.responseTimeMs)
        :: successTracePost d o participant currentRound content)

/-! ## Further fixtures -/

def bigContent : String := String.mk (List.replicate 800000 'a')

def systemMsgBig : ChatMessage := { role := "system", content := bigContent }

def oldTranscriptMsg : ChatMessage := { role := "user", content := "old line" }

def currentPromptMsg : ChatMessage := { role := "user", content := "Go." }

def loopMessages : List QualityMessage :=
  [ { id := "m1", agent_name := "Agent 1", content := "We should regulate AI." },
    { id := "m2", agent_name := "Agent 2", content := "Regulation stifles progress." },
    { id := "m3", agent_name := "Agent 1", content := "We should regulate AI." },
    { id := "m4", agent_name := "Agent 2", content := "Regulation stifles progress." } ]

/-- A fixed stand-in for the external LLM intervention oracle. -/
def fixedIntervention : String → Nat → List QualityMessage → String :=
  fun patternStr _ _ =>
    "The conversation appears to be repeating the pattern " ++ patternStr
      ++ ". Explore a different angle to move forward."

/-- Two messages by a single speaker in a two-participant debate: the
sample-derived participation denominator makes participation 100 even
though only one of the two configured participants has spoken. -/
def healthMessagesOneAgent : List HealthMessage :=
  [ { content := "a b", agent_name := "Agent 1" },
    { content := "c d", agent_name := "Agent 1" } ]

/-! ## Theorems -/

section Helpers

variable {α β : Type}

theorem getElem?_set_of_some {l : List α} {i : Nat} {y : α} (h : l[i]? = some y)
    (x : α) : (l.set i x)[i]? = some x := by
  induction l generalizing i with
  | nil => simp at h
  | cons a rest ih =>
      cases i with
      | zero => simp [List.set]
      | succ j => simpa [List.set] using ih (by simpa using h)

theorem getElem?_append_left_of_some {l1 l2 : List α} {i : Nat} {x : α}
    (h : l1[i]? = some x) : (l1 ++ l2)[i]? = some x := by
  induction l1 generalizing i with
  | nil => simp at h
  | cons a rest ih =>
      cases i with
      | zero => simpa using h
      | succ j => simpa using ih (by simpa using h)

theorem sum_map_set_of_some (f : α → Nat) {l : List α} {i : Nat} {y : α}
    (h : l[i]? = some y) (x : α) :
    ((l.set i x).map f).sum + f y = (l.map f).sum + f x := by
  induction l generalizing i with
  | nil => simp at h
  | cons a rest ih =>
      cases i with
      | zero =>
          simp only [List.getElem?_cons_zero, Option.some.injEq] at h
          cases h
          simp [List.set]
          omega
      | succ j =>
          have ih2 := ih (i := j) (by simpa using h)
          simp only [List.set, List.map_cons, List.sum_cons]
          omega

theorem takeWhile_append_of_forall {p : α → Bool} {l1 l2 : List α}
    (h : ∀ a ∈ l1, p a = true) :
    (l1 ++ l2).takeWhile p = l1 ++ l2.takeWhile p := by
  induction l1 with
  | nil => simp
  | cons a rest ih =>
      have ha := h a (by simp)
      simp only [List.cons_append, List.takeWhile_cons, ha]
      simp [ih (fun b hb => h b (by simp [hb]))]

theorem registryAfter_append (init : Debate) (l1 l2 : List TurnAction) :
    registryAfter init (l1 ++ l2) = registryAfter (registryAfter init l1) l2 := by
  simp [registryAfter, List.foldl_append]

theorem registryAfter_emit_map (init : Debate) (f : β → DebateEvent) (l : List β) :
    registryAfter init (l.map (fun b => TurnAction.emit (f b))) = init := by
  induction l with
  | nil => rfl
  | cons b rest ih => simpa [registryAfter] using ih

theorem lookup_setDebate (reg : List (String × Debate)) (id : String) (d : Debate) :
    lookupDebate (setDebate reg id d) id = some d := by
  induction reg with
  | nil => simp [setDebate, lookupDebate]
  | cons p rest ih =>
      obtain ⟨k, d0⟩ := p
      by_cases h : k = id <;> simp [setDebate, lookupDebate, h, ih]

theorem truncateMiddle_shape (count : List ChatMessage → Nat) (maxTokens : Nat)
    (systemMsg currentPrompt : ChatMessage) (middle : List ChatMessage) :
    ∃ k, (truncateMiddle count maxTokens systemMsg currentPrompt middle).1
          = systemMsg :: (middle.drop k ++ [currentPrompt]) ∧
        ((truncateMiddle count maxTokens systemMsg currentPrompt middle).2 ≤ maxTokens ∨
          (truncateMiddle count maxTokens systemMsg currentPrompt middle).1
            = [systemMsg, currentPrompt]) := by
  induction middle with
  | nil => exact ⟨0, by simp [truncateMiddle], Or.inr (by simp [truncateMiddle])⟩
  | cons m rest ih =>
      by_cases h : count (systemMsg :: m :: (rest ++ [currentPrompt])) ≤ maxTokens
      · refine ⟨0, ?_, Or.inl ?_⟩ <;> simp [truncateMiddle, h]
      · obtain ⟨k, hk1, hk2⟩ := ih
        refine ⟨k + 1, ?_, ?_⟩
        · simpa [truncateMiddle, h] using hk1
        · simpa [truncateMiddle, h] using hk2

theorem nextTurnTrace_success (d : Debate) (o : TurnOracle) (participant : Participant)
    (currentRound : DebateRound) (content : String)
    (hnc : isDebateComplete d = false)
    (hp : d.config.participants[d.current_turn]? = some participant)
    (hr : d.rounds[d.current_round - 1]? = some currentRound)
    (hok : o.llmOutcome = .ok content) :
    nextTurnTrace d o = successTrace d o participant currentRound content := by
  have hd0 : (if d.status = DebateStatus.initialized
      then { d with status := DebateStatus.running } else d).rounds = d.rounds := by
    split <;> rfl
  by_cases hi : d.status = DebateStatus.initialized <;>
  by_cases hw : d.current_round
      < (advanceTurnPointers d.current_turn d.current_round
          d.config.participants.length).2 <;>
    simp only [nextTurnTrace, successTrace, successTracePre, successTracePost,
      advancedDebate, talliedDebate, appendedRound, turnResponse, turnMessageRow,
      runningDebate, hnc, hi, hp, hr, hok,
      Bool.false_eq_true, if_false, if_true, reduceIte] <;>
    simp [hd0, hw, getElem?_set_of_some hr, getElem?_append_left_of_some]

theorem registryAt_pc_decompose (init : Debate) (pre post : List TurnAction)
    (e : TurnAction)
    (hpre : ∀ a ∈ pre, isParticipantCompleteEmit a = false)
    (he : isParticipantCompleteEmit e = true) :
    containsParticipantComplete (pre ++ e :: post) = true ∧
    registryAtParticipantComplete init (pre ++ e :: post) = registryAfter init pre := by
  constructor
  · simp only [containsParticipantComplete, List.any_append, List.any_cons, he,
      Bool.true_or, Bool.or_true]
  · unfold registryAtParticipantComplete
    rw [takeWhile_append_of_forall (fun a ha => by simp [hpre a ha])]
    simp [List.takeWhile_cons, he]

theorem successTracePre_no_pc (d : Debate) (o : TurnOracle) (participant : Participant)
    (currentRound : DebateRound) (content : String) :
    ∀ a ∈ successTracePre d o participant currentRound content,
      isParticipantCompleteEmit a = false := by
  intro a ha
  cases a with
  | commit _ => rfl
  | insertMessage _ => rfl
  | raise => rfl
  | emit e =>
      unfold successTracePre at ha
      cases e <;> try rfl
      exfalso
      by_cases hi : d.status = DebateStatus.initialized <;> simp [hi] at ha

theorem registryAfter_successTracePre (init d : Debate) (o : TurnOracle)
    (participant : Participant) (currentRound : DebateRound) (content : String) :
    registryAfter init (successTracePre d o participant currentRound content)
      = advancedDebate d o participant currentRound content := by
  unfold successTracePre
  by_cases hi : d.status = DebateStatus.initialized <;>
    simp [hi, registryAfter_append, registryAfter_emit_map, registryAfter]

theorem successTrace_pc_commit (d : Debate) (o : TurnOracle) (participant : Participant)
    (currentRound : DebateRound) (content : String) :
    containsParticipantComplete (successTrace d o participant currentRound content) = true ∧
    registryAtParticipantComplete d (successTrace d o participant currentRound content)
      = advancedDebate d o participant currentRound content := by
  obtain ⟨h1, h2⟩ := registryAt_pc_decompose d
    (successTracePre d o participant currentRound content)
    (successTracePost d o participant currentRound content)
    (TurnAction.emit (.participantComplete d.current_round d.current_turn
      participant.name (o.inputTokens + o.outputTokens) o.cost o.responseTimeMs))
    (successTracePre_no_pc d o participant currentRound content) rfl
  exact ⟨h1, h2.trans (registryAfter_successTracePre d d o participant currentRound content)⟩

theorem insertedMessages_nil : insertedMessages [] = [] := rfl

theorem insertedMessages_cons_emit (e : DebateEvent) (l : List TurnAction) :
    insertedMessages (.emit e :: l) = insertedMessages l := rfl

theorem insertedMessages_cons_commit (d : Debate) (l : List TurnAction) :
    insertedMessages (.commit d :: l) = insertedMessages l := rfl

theorem insertedMessages_cons_insert (m : MessageRow) (l : List TurnAction) :
    insertedMessages (.insertMessage m :: l) = m :: insertedMessages l := rfl

theorem insertedMessages_append (l1 l2 : List TurnAction) :
    insertedMessages (l1 ++ l2) = insertedMessages l1 ++ insertedMessages l2 := by
  simp [insertedMessages]

theorem insertedMessages_emit_map {β} (f : β → DebateEvent) (l : List β) :
    insertedMessages (l.map (fun b => TurnAction.emit (f b))) = [] := by
  induction l with
  | nil => rfl
  | cons b rest ih => simpa [insertedMessages] using ih

theorem insertedMessages_emit_map_id (l : List DebateEvent) :
    insertedMessages (l.map TurnAction.emit) = [] := by
  induction l with
  | nil => rfl
  | cons e rest ih => simpa [insertedMessages] using ih

theorem insertedMessages_ite (c : Prop) [Decidable c] (A B : List TurnAction) :
    insertedMessages (if c then A else B)
      = if c then insertedMessages A else insertedMessages B := by
  split <;> rfl

theorem successTrace_inserted (d : Debate) (o : TurnOracle) (participant : Participant)
    (currentRound : DebateRound) (content : String)
    (hpipe : o.pipelineInsertOk = true) :
    insertedMessages (successTrace d o participant currentRound content)
      = [turnMessageRow d o participant currentRound content] := by
  unfold successTrace successTracePre successTracePost
  simp [hpipe, insertedMessages_append, insertedMessages_cons_emit,
    insertedMessages_cons_commit, insertedMessages_cons_insert,
    insertedMessages_emit_map, insertedMessages_emit_map_id,
    insertedMessages_ite, insertedMessages_nil, ite_self]

theorem advancedDebate_seq_sum (d : Debate) (o : TurnOracle) (participant : Participant)
    (currentRound : DebateRound) (content : String)
    (hr : d.rounds[d.current_round - 1]? = some currentRound) :
    ((advancedDebate d o participant currentRound content).rounds.map
      (fun rr => rr.responses.length)).sum
      = (d.rounds.map (fun rr => rr.responses.length)).sum + 1 := by
  have hrun : (runningDebate d).rounds = d.rounds := by
    unfold runningDebate; split <;> rfl
  have hset := sum_map_set_of_some (fun rr => rr.responses.length) hr
    (appendedRound o participant d.current_turn currentRound content)
  simp only [appendedRound, List.length_append, List.length_singleton] at hset
  unfold advancedDebate talliedDebate
  by_cases hw : d.current_round
      < (advanceTurnPointers d.current_turn d.current_round
          d.config.participants.length).2 <;>
    simp only [hw, if_true, if_false, reduceIte, hrun, List.map_append, List.sum_append,
      List.map_cons, List.map_nil, List.sum_cons, List.sum_nil, List.length_nil] <;>
  · simp only [appendedRound] at hset ⊢
    omega

theorem advanceTurnPointers_mod (t r P : Nat) (ht : t < P) :
    (advanceTurnPointers t r P).1 = (t + 1) % P ∧
    (advanceTurnPointers t r P).2 = (if (t + 1) % P = 0 then r + 1 else r) := by
  unfold advanceTurnPointers
  rcases Nat.lt_or_ge (t + 1) P with hlt | hge
  · have hmod : (t + 1) % P = t + 1 := Nat.mod_eq_of_lt hlt
    constructor
    · rw [if_neg (by omega)]
      exact hmod.symm
    · rw [if_neg (by omega), if_neg (by omega)]
  · have heq : t + 1 = P := by omega
    constructor
    · rw [if_pos (by omega), heq, Nat.mod_self]
    · rw [if_pos (by omega), heq, if_pos (Nat.mod_self P)]

theorem ratSqrt_zero : ratSqrt 0 = 0 := by
  unfold ratSqrt
  rw [Rat.num_zero, Rat.den_zero]
  norm_num

theorem dedup_length_pos [DecidableEq α] {l : List α} (h : l ≠ []) :
    1 ≤ l.dedup.length := by
  rcases List.exists_mem_of_ne_nil l h with ⟨a, ha⟩
  have : a ∈ l.dedup := List.mem_dedup.mpr ha
  exact List.length_pos.mpr (fun hnil => by simp [hnil] at this)

end Helpers

/-- **C5.** For every similarity score s in [0,1] and every explanation
string e, `classify_severity` returns: high when s ≥ 0.90; for
0.85 ≤ s < 0.90, high exactly when the explanation contains one of the
five strong-indicator phrases case-insensitively, else medium; low
otherwise; and it never returns critical. -/
theorem classify_severity_tiers (s : ℚ) (e : String) (h0 : 0 ≤ s) (h1 : s ≤ 1) :
    (9/10 ≤ s → classifySeverity s e = "high") ∧
    (85/100 ≤ s → s < 9/10 →
      classifySeverity s e = (if containsStrongIndicator e then "high" else "medium")) ∧
    (s < 85/100 → classifySeverity s e = "low") ∧
    classifySeverity s e ≠ "critical" := by
  unfold classifySeverity
  refine ⟨?_, ?_, ?_, ?_⟩
  · intro h
    rw [if_pos h]
  · intro h h2
    rw [if_neg (not_le.mpr h2), if_pos h]
  · intro h
    rw [if_neg (not_le.mpr (by linarith)), if_neg (not_le.mpr h)]
  · split_ifs <;> decide

/-- Witness for C5 at s = 0.93 (high) and s = 0.86 with a strong-indicator
explanation (high). -/
theorem classify_severity_tiers_witness :
    classifySeverity (93/100) "related topic" = "high" ∧
    classifySeverity (86/100) "This directly contradicts the earlier claim." =
      (if containsStrongIndicator "This directly contradicts the earlier claim."
        then "high" else "medium") := by
  constructor
  · exact (classify_severity_tiers (93/100) "related topic"
      (by norm_num) (by norm_num)).1 (by norm_num)
  · exact (classify_severity_tiers (86/100)
      "This directly contradicts the earlier claim."
      (by norm_num) (by norm_num)).2.1 (by norm_num) (by norm_num)

/-- **C8.** For every non-negative cost c and positive threshold T,
`get_cost_warning_level` returns none iff c < 0.5·T, low iff
0.5·T ≤ c < 0.75·T, medium iff 0.75·T ≤ c < T, high iff T ≤ c < 1.5·T,
and critical iff c ≥ 1.5·T. -/
theorem cost_warning_tiers (c T : ℚ) (hc : 0 ≤ c) (hT : 0 < T) :
    (getCostWarningLevel c T = "none" ↔ c < (1/2) * T) ∧
    (getCostWarningLevel c T = "low" ↔ (1/2) * T ≤ c ∧ c < (3/4) * T) ∧
    (getCostWarningLevel c T = "medium" ↔ (3/4) * T ≤ c ∧ c < T) ∧
    (getCostWarningLevel c T = "high" ↔ T ≤ c ∧ c < (3/2) * T) ∧
    (getCostWarningLevel c T = "critical" ↔ (3/2) * T ≤ c) := by
  unfold getCostWarningLevel
  split_ifs with h1 h2 h3 h4 <;>
    refine ⟨?_, ?_, ?_, ?_, ?_⟩ <;> constructor <;> intro h <;>
    first
      | rfl
      | (exact by linarith)
      | (exact ⟨by linarith, by linarith⟩)
      | (exfalso; revert h; decide)

/-- Witness for C8: threshold $1.00 with costs $0.40/$0.80/$1.60 lands in
the none/medium/critical tiers. -/
theorem cost_warning_tiers_witness :
    getCostWarningLevel (4/10) 1 = "none" ∧
    getCostWarningLevel (8/10) 1 = "medium" ∧
    getCostWarningLevel (16/10) 1 = "critical" := by
  refine ⟨?_, ?_, ?_⟩
  · exact (cost_warning_tiers (4/10) 1 (by norm_num) (by norm_num)).1.mpr (by norm_num)
  · exact (cost_warning_tiers (8/10) 1 (by norm_num) (by norm_num)).2.2.1.mpr
      ⟨by norm_num, by norm_num⟩
  · exact (cost_warning_tiers (16/10) 1 (by norm_num) (by norm_num)).2.2.2.2.mpr
      (by norm_num)

/-- **C9 counterexample.** The encoder-fallback of `count_tokens` computes
Python floor division `len(text) // 4`, not the ceiling: on the
five-character text "aaaaa" it returns 1, whereas ceil(5/4) = 2. -/
theorem count_tokens_fallback_not_ceiling :
    fallbackCountTokens "aaaaa" = 1 ∧ ("aaaaa".length + 3) / 4 = 2 ∧
    fallbackCountTokens "aaaaa" ≠ ("aaaaa".length + 3) / 4 := by
  decide

/-- **C9 (amended).** The encoder fallback returns floor(len(text)/4) — it
agrees with ceil(len(text)/4) exactly when the length is a multiple of 4 —
and, being a total function, it never fails. -/
theorem count_tokens_fallback_floor (text : String) :
    fallbackCountTokens text = text.length / 4 ∧
    (fallbackCountTokens text = (text.length + 3) / 4 ↔ text.length % 4 = 0) := by
  refine ⟨rfl, ?_⟩
  unfold fallbackCountTokens
  omega

/-- **C1.** For every completed NextTurn invocation on a debate whose
snapshot at turn start was (current_round = r, current_turn = t) with P
configured participants: the debate committed to the registry before the
`participant_complete` event is emitted already satisfies
current_turn = (t+1) mod P and current_round = r+1 iff (t+1) mod P = 0;
hence `participant_complete` is never emitted while the registry still
holds the stale pre-turn pointers. -/
theorem participant_complete_after_advance_commit
    (d : Debate) (o : TurnOracle) (participant : Participant)
    (currentRound : DebateRound) (content : String)
    (hnc : isDebateComplete d = false)
    (hp : d.config.participants[d.current_turn]? = some participant)
    (hr : d.rounds[d.current_round - 1]? = some currentRound)
    (hok : o.llmOutcome = .ok content) :
    containsParticipantComplete (nextTurnTrace d o) = true ∧
    (registryAtParticipantComplete d (nextTurnTrace d o)).current_turn
      = (d.current_turn + 1) % d.config.participants.length ∧
    (registryAtParticipantComplete d (nextTurnTrace d o)).current_round
      = (if (d.current_turn + 1) % d.config.participants.length = 0
          then d.current_round + 1 else d.current_round) := by
  have hP : d.current_turn < d.config.participants.length := by
    by_contra hge
    rw [List.getElem?_eq_none (by omega)] at hp
    exact Option.noConfusion hp
  obtain ⟨hmod1, hmod2⟩ := advanceTurnPointers_mod d.current_turn d.current_round
    d.config.participants.length hP
  rw [nextTurnTrace_success d o participant currentRound content hnc hp hr hok]
  obtain ⟨h1, h2⟩ := successTrace_pc_commit d o participant currentRound content
  refine ⟨h1, ?_, ?_⟩ <;> rw [h2]
  · show (advanceTurnPointers d.current_turn d.current_round
      d.config.participants.length).1 = _
    exact hmod1
  · show (advanceTurnPointers d.current_turn d.current_round
      d.config.participants.length).2 = _
    exact hmod2

/-- Witness for C1: the first turn of a fresh two-participant debate; the
registry state at `participant_complete` time reads turn 1 of round 1. -/
theorem participant_complete_after_advance_commit_witness :
    containsParticipantComplete (nextTurnTrace debateFresh oracleOk) = true ∧
    (registryAtParticipantComplete debateFresh (nextTurnTrace debateFresh oracleOk)).current_turn
      = (debateFresh.current_turn + 1) % debateFresh.config.participants.length ∧
    (registryAtParticipantComplete debateFresh (nextTurnTrace debateFresh oracleOk)).current_round
      = (if (debateFresh.current_turn + 1) % debateFresh.config.participants.length = 0
          then debateFresh.current_round + 1 else debateFresh.current_round) :=
  participant_complete_after_advance_commit debateFresh oracleOk participantA
    { round_number := 1, responses := [], tokens_used := [], cost_estimate := 0 }
    "Opening argument." rfl rfl rfl rfl

/-- **C2 counterexample.** The quality pipeline computes `sequence_number`
as the response total of the already-advanced debate (line 433 runs after
the line-388 replacement), so the very first persisted utterance of a
fresh two-participant debate — turn (r,t) = (1,0) — carries
sequence_number 1, not (1-1)·P + 0 = 0, and the persisted values occupy
[1, N], not [0, N). -/
theorem sequence_number_starts_at_one :
    (insertedMessages (nextTurnTrace debateFresh oracleOk)).map
        MessageRow.sequence_number = [1] ∧
    (1 : Nat) ≠ (debateFresh.current_round - 1) * debateFresh.config.participants.length
        + debateFresh.current_turn := by
  constructor
  · rfl
  · decide

/-- **C2 (amended).** After N completed turns the persisted sequence
numbers form the contiguous range [1, N]: the utterance of turn (r, t)
(1-indexed round, 0-indexed turn, P participants) is persisted with
sequence_number (r-1)·P + t + 1 — one more than the claimed (r-1)·P + t. -/
theorem utterance_sequence_number
    (d : Debate) (o : TurnOracle) (participant : Participant)
    (currentRound : DebateRound) (content : String)
    (hnc : isDebateComplete d = false)
    (hp : d.config.participants[d.current_turn]? = some participant)
    (hr : d.rounds[d.current_round - 1]? = some currentRound)
    (hok : o.llmOutcome = .ok content)
    (hpipe : o.pipelineInsertOk = true)
    (hsum : (d.rounds.map (fun rr => rr.responses.length)).sum
        = (d.current_round - 1) * d.config.participants.length + d.current_turn) :
    (insertedMessages (nextTurnTrace d o)).map MessageRow.sequence_number
      = [(d.current_round - 1) * d.config.participants.length + d.current_turn + 1] := by
  rw [nextTurnTrace_success d o participant currentRound content hnc hp hr hok,
    successTrace_inserted d o participant currentRound content hpipe]
  simp only [List.map_cons, List.map_nil, List.cons.injEq, and_true]
  show ((advancedDebate d o participant currentRound content).rounds.map
      (fun rr => rr.responses.length)).sum = _
  rw [advancedDebate_seq_sum d o participant currentRound content hr, hsum]

/-- Witness for C2 (amended): the first turn of a fresh two-participant
debate persists sequence_number (1-1)·2 + 0 + 1 = 1. -/
theorem utterance_sequence_number_witness :
    (insertedMessages (nextTurnTrace debateFresh oracleOk)).map MessageRow.sequence_number
      = [(debateFresh.current_round - 1) * debateFresh.config.participants.length
          + debateFresh.current_turn + 1] :=
  utterance_sequence_number debateFresh oracleOk participantA
    { round_number := 1, responses := [], tokens_used := [], cost_estimate := 0 }
    "Opening argument." rfl rfl rfl rfl rfl rfl

/-- **C3 counterexample.** A debate in the Error state (with
`stopped_manually` false) is terminal, yet NextTurn overwrites its status
to Completed after emitting `debate_complete`: the debate state after the
call is not the state before it, contradicting the claimed idempotence of
the first repeated invocation. -/
theorem terminal_nextTurn_mutates_error_state :
    isDebateComplete debateErrored = true ∧
    debateErrored.status = DebateStatus.error ∧
    (registryAfter debateErrored (nextTurnTrace debateErrored oracleOk)).status
      = DebateStatus.completed ∧
    registryAfter debateErrored (nextTurnTrace debateErrored oracleOk) ≠ debateErrored := by
  refine ⟨rfl, rfl, rfl, ?_⟩
  intro hcontra
  have hst := congrArg Debate.status hcontra
  exact absurd hst (by decide)

/-- **C3 (amended).** NextTurn on a terminal or manually stopped debate
emits exactly one event, the `debate_complete`, and its only state change
is overwriting status with Stopped (when stopped_manually) or Completed;
hence from the second invocation on the call is idempotent: a repeat call
emits the identical single event and leaves the state entirely
unchanged. -/
theorem terminal_nextTurn_single_complete (d : Debate) (o o2 : TurnOracle)
    (h : isDebateComplete d = true) :
    nextTurnTrace d o =
      [ TurnAction.emit (DebateEvent.debateComplete d.current_round d.current_turn
          "Debate is complete" d.rounds.length (some d.stopped_manually) none),
        TurnAction.commit { d with status :=
          if d.stopped_manually then DebateStatus.stopped else DebateStatus.completed } ] ∧
    registryAfter d (nextTurnTrace d o)
      = { d with status :=
          if d.stopped_manually then DebateStatus.stopped else DebateStatus.completed } ∧
    nextTurnTrace (registryAfter d (nextTurnTrace d o)) o2
      = [ TurnAction.emit (DebateEvent.debateComplete d.current_round d.current_turn
            "Debate is complete" d.rounds.length (some d.stopped_manually) none),
          TurnAction.commit (registryAfter d (nextTurnTrace d o)) ] ∧
    registryAfter (registryAfter d (nextTurnTrace d o))
        (nextTurnTrace (registryAfter d (nextTurnTrace d o)) o2)
      = registryAfter d (nextTurnTrace d o) := by
  have hstep : ∀ (dd : Debate) (oo : TurnOracle), isDebateComplete dd = true →
      nextTurnTrace dd oo =
        [ TurnAction.emit (DebateEvent.debateComplete dd.current_round dd.current_turn
            "Debate is complete" dd.rounds.length (some dd.stopped_manually) none),
          TurnAction.commit { dd with status :=
            if dd.stopped_manually then DebateStatus.stopped else DebateStatus.completed } ] := by
    intro dd oo hdd
    unfold nextTurnTrace
    rw [if_pos hdd]
  have h1 := hstep d o h
  have hreg1 : registryAfter d (nextTurnTrace d o)
      = { d with status :=
          if d.stopped_manually then DebateStatus.stopped else DebateStatus.completed } := by
    rw [h1]; rfl
  have h2c : isDebateComplete { d with status :=
      if d.stopped_manually then DebateStatus.stopped else DebateStatus.completed } = true := by
    cases hsm : d.stopped_manually <;> simp [isDebateComplete, hsm]
  have h2 := hstep _ o2 h2c
  refine ⟨h1, hreg1, ?_, ?_⟩
  · rw [hreg1, h2]
  · rw [hreg1, h2]
    rfl

/-- Witness for C3 (amended): a completed debate; NextTurn re-emits the
single `debate_complete` and the state is a fixed point. -/
theorem terminal_nextTurn_single_complete_witness :
    nextTurnTrace debateCompleted oracleOk =
      [ TurnAction.emit (DebateEvent.debateComplete debateCompleted.current_round
          debateCompleted.current_turn "Debate is complete" debateCompleted.rounds.length
          (some debateCompleted.stopped_manually) none),
        TurnAction.commit { debateCompleted with status :=
          if debateCompleted.stopped_manually then DebateStatus.stopped
          else DebateStatus.completed } ] ∧
    registryAfter debateCompleted (nextTurnTrace debateCompleted oracleOk)
      = { debateCompleted with status :=
          if debateCompleted.stopped_manually then DebateStatus.stopped
          else DebateStatus.completed } ∧
    nextTurnTrace (registryAfter debateCompleted (nextTurnTrace debateCompleted oracleOk)) oracleOk
      = [ TurnAction.emit (DebateEvent.debateComplete debateCompleted.current_round
            debateCompleted.current_turn "Debate is complete" debateCompleted.rounds.length
            (some debateCompleted.stopped_manually) none),
          TurnAction.commit (registryAfter debateCompleted
            (nextTurnTrace debateCompleted oracleOk)) ] ∧
    registryAfter (registryAfter debateCompleted (nextTurnTrace debateCompleted oracleOk))
        (nextTurnTrace (registryAfter debateCompleted
          (nextTurnTrace debateCompleted oracleOk)) oracleOk)
      = registryAfter debateCompleted (nextTurnTrace debateCompleted oracleOk) :=
  terminal_nextTurn_single_complete debateCompleted oracleOk oracleOk rfl

/-- Evaluation lemma for `_truncate_context` on a three-message context in
which even the floor {system, prompt} exceeds the budget. -/
theorem truncateContext_floor_case (count : List ChatMessage → Nat) (maxTokens : Nat)
    (systemMsg mid currentPrompt : ChatMessage)
    (h1 : ¬ count [systemMsg, mid, currentPrompt] ≤ maxTokens)
    (h2 : ¬ count [systemMsg, currentPrompt] ≤ maxTokens) :
    truncateContext count maxTokens [systemMsg, mid, currentPrompt]
      = ([systemMsg, currentPrompt], count [systemMsg, currentPrompt]) := by
  unfold truncateContext
  rw [if_neg (by simp)]
  show truncateMiddle count maxTokens systemMsg
      (([mid, currentPrompt] : List ChatMessage).getLastD systemMsg)
      ([mid, currentPrompt] : List ChatMessage).dropLast = _
  have hl : ([mid, currentPrompt] : List ChatMessage).getLastD systemMsg
      = currentPrompt := rfl
  have hd : ([mid, currentPrompt] : List ChatMessage).dropLast = [mid] := rfl
  rw [hl, hd]
  unfold truncateMiddle
  simp only [List.cons_append, List.nil_append]
  rw [if_neg h1]
  rfl

/-- The two token counts of the C4 counterexample, stated for an abstract
system message of known content length so that no kernel computation ever
touches the 800000-character witness string. -/
theorem floor_case_counts (sysMsg : ChatMessage) (hs : sysMsg.content.length = 800000) :
    fallbackCountMessageTokens [sysMsg, oldTranscriptMsg, currentPromptMsg] = 200014 ∧
    fallbackCountMessageTokens [sysMsg, currentPromptMsg] = 200008 := by
  have hsys : fallbackCountTokens sysMsg.content = 200000 := by
    unfold fallbackCountTokens
    rw [hs]
  have hold : fallbackCountTokens oldTranscriptMsg.content = 2 := rfl
  have hgo : fallbackCountTokens currentPromptMsg.content = 0 := rfl
  constructor <;>
  · simp only [fallbackCountMessageTokens, List.map_cons, List.map_nil, List.sum_cons,
      List.sum_nil, List.length_cons, List.length_nil, hsys, hold, hgo]
    omega

/-- **C4 counterexample.** With the repository fallback token counter
(`len(text) // 4` per content plus 4 per message), a system prompt of
800000 characters counts 200000 tokens, beyond C_max = 100000.
`_truncate_context` then drops the whole transcript and still returns a
[system, prompt] context of 200008 tokens: the returned count is NOT
≤ C_max, refuting "dropped ... until the count is ≤ C_max". -/
theorem truncation_cannot_reach_budget :
    maxContextTokens <
      fallbackCountMessageTokens [systemMsgBig, oldTranscriptMsg, currentPromptMsg] ∧
    (truncateContext fallbackCountMessageTokens maxContextTokens
        [systemMsgBig, oldTranscriptMsg, currentPromptMsg]).1
      = [systemMsgBig, currentPromptMsg] ∧
    maxContextTokens <
      (truncateContext fallbackCountMessageTokens maxContextTokens
        [systemMsgBig, oldTranscriptMsg, currentPromptMsg]).2 := by
  have hbig : systemMsgBig.content.length = 800000 := by
    have h1 : systemMsgBig.content.length = (List.replicate 800000 'a').length := rfl
    rw [h1, List.length_replicate]
  obtain ⟨hc3, hc2⟩ := floor_case_counts systemMsgBig hbig
  have hres := truncateContext_floor_case fallbackCountMessageTokens maxContextTokens
    systemMsgBig oldTranscriptMsg currentPromptMsg
    (by rw [hc3]; norm_num [maxContextTokens])
    (by rw [hc2]; norm_num [maxContextTokens])
  rw [hres, hc3, hc2]
  norm_num [maxContextTokens]

/-- **C4 (amended).** `_truncate_context` always keeps the system message
first and the final user prompt last and drops transcript messages only
from the oldest end; the returned count is ≤ C_max unless even the
irreducible floor {system, user prompt} exceeds it, in which case that
floor is returned (with its over-budget count).  The v2 assembler
`_build_context_for_participant` never truncates and always returns
exactly the [system, user-prompt] pair. -/
theorem context_keeps_system_and_prompt (count : List ChatMessage → Nat)
    (maxTokens : Nat) (systemMsg currentPrompt : ChatMessage)
    (middle : List ChatMessage) (d : Debate) (participant : Participant) :
    (∃ k,
      (truncateContext count maxTokens (systemMsg :: (middle ++ [currentPrompt]))).1
        = systemMsg :: (middle.drop k ++ [currentPrompt]) ∧
      ((truncateContext count maxTokens (systemMsg :: (middle ++ [currentPrompt]))).2
          ≤ maxTokens ∨
        (truncateContext count maxTokens (systemMsg :: (middle ++ [currentPrompt]))).1
          = [systemMsg, currentPrompt])) ∧
    (∃ userContent,
      buildContextForParticipant d participant =
        [{ role := "system", content := participant.system_prompt },
         { role := "user", content := userContent }]) := by
  constructor
  · unfold truncateContext
    by_cases hlen : (systemMsg :: (middle ++ [currentPrompt])).length ≤ 2
    · have hm : middle = [] := by
        cases middle with
        | nil => rfl
        | cons a rest => simp at hlen
      subst hm
      rw [if_pos (by simpa using hlen)]
      exact ⟨0, by simp, Or.inr (by simp)⟩
    · rw [if_neg hlen]
      show ∃ k, (truncateMiddle count maxTokens systemMsg
          ((middle ++ [currentPrompt]).getLastD systemMsg)
          (middle ++ [currentPrompt]).dropLast).1
            = systemMsg :: (middle.drop k ++ [currentPrompt]) ∧
        ((truncateMiddle count maxTokens systemMsg
          ((middle ++ [currentPrompt]).getLastD systemMsg)
          (middle ++ [currentPrompt]).dropLast).2 ≤ maxTokens ∨
         (truncateMiddle count maxTokens systemMsg
          ((middle ++ [currentPrompt]).getLastD systemMsg)
          (middle ++ [currentPrompt]).dropLast).1 = [systemMsg, currentPrompt])
      rw [List.getLastD_concat, List.dropLast_concat]
      exact truncateMiddle_shape count maxTokens systemMsg currentPrompt middle
  · exact ⟨_, rfl⟩

/-- **C6 counterexample.** Over the four-message state A,B,A,B the
detector finds the repeating pattern (A, B) and `_store_loop` inserts a
row; running Detect a second time over the identical state inserts a
second row — the store grows from 1 to 2 rows, so the second run is not
insertion-free. -/
theorem loop_detect_reinserts :
    ((detectLoops "conv1" loopMessages fixedIntervention []).1).length = 1 ∧
    ((detectLoops "conv1" loopMessages fixedIntervention
        (detectLoops "conv1" loopMessages fixedIntervention []).1).1).length = 2 := by
  constructor <;> rfl

/-- **C6 (amended).** The loop detector is deterministic but does not
deduplicate: a second Detect over the same conversation state returns the
identical detection result and appends one more row exactly when a loop is
detected (zero when not) — the same growth as the first run, not zero. -/
theorem loop_detect_second_run (conversationId : String)
    (recentMessages : List QualityMessage)
    (intervention : String → Nat → List QualityMessage → String)
    (store : List LoopRow) :
    (detectLoops conversationId recentMessages intervention
        (detectLoops conversationId recentMessages intervention store).1).2
      = (detectLoops conversationId recentMessages intervention store).2 ∧
    (detectLoops conversationId recentMessages intervention store).1.length
      = store.length
        + (if (detectLoops conversationId recentMessages intervention store).2.isSome
            then 1 else 0) ∧
    (detectLoops conversationId recentMessages intervention
        (detectLoops conversationId recentMessages intervention store).1).1.length
      = (detectLoops conversationId recentMessages intervention store).1.length
        + (if (detectLoops conversationId recentMessages intervention store).2.isSome
            then 1 else 0) := by
  unfold detectLoops
  simp only [List.length_map]
  by_cases hlen : recentMessages.length < 2 * 2
  · simp [hlen]
  · cases hf : (candidateLengths recentMessages.length).findSome?
        (fun patternLength => detectPatternRepetition conversationId recentMessages
          (recentMessages.map QualityMessage.agent_name) patternLength intervention) <;>
      simp [hlen, hf]

/-- **C7 counterexample.** Pausing a freshly created debate — status
Initialized, not Running — succeeds and publishes status Paused:
`pause_debate` checks only that the debate exists and never inspects the
prior status (the repository test suite itself pauses an Initialized
debate and asserts success). -/
theorem pause_from_initialized_succeeds :
    debateFresh.status = DebateStatus.initialized ∧
    debateFresh.status ≠ DebateStatus.running ∧
    pauseDebate registryFixture "debate_v2_fixture"
      = .ok ([("debate_v2_fixture", { debateFresh with status := DebateStatus.paused })],
             { debateFresh with status := DebateStatus.paused }) := by
  refine ⟨rfl, by decide, rfl⟩

/-- **C7 (amended).** `Pause(id)` succeeds from every status whenever the
debate exists, unconditionally setting status = Paused in the registry;
only an unknown id fails (NotFound).  No InvalidState check is performed. -/
theorem pause_succeeds_from_any_status (reg : List (String × Debate))
    (debateId : String) (d : Debate)
    (h : lookupDebate reg debateId = some d) :
    pauseDebate reg debateId
      = .ok (setDebate reg debateId { d with status := DebateStatus.paused },
             { d with status := DebateStatus.paused }) ∧
    lookupDebate (setDebate reg debateId { d with status := DebateStatus.paused }) debateId
      = some { d with status := DebateStatus.paused } := by
  constructor
  · unfold pauseDebate
    rw [h]
  · exact lookup_setDebate reg debateId _

/-- Witness for C7 (amended): pausing the registered fixture debate. -/
theorem pause_succeeds_from_any_status_witness :
    pauseDebate registryFixture "debate_v2_fixture"
      = .ok (setDebate registryFixture "debate_v2_fixture"
              { debateFresh with status := DebateStatus.paused },
             { debateFresh with status := DebateStatus.paused }) ∧
    lookupDebate (setDebate registryFixture "debate_v2_fixture"
        { debateFresh with status := DebateStatus.paused }) "debate_v2_fixture"
      = some { debateFresh with status := DebateStatus.paused } :=
  pause_succeeds_from_any_status registryFixture "debate_v2_fixture" debateFresh rfl

/-- **C10 counterexample.** Two messages by a single speaker with two
configured participants: the source computes a participation factor of 100
(its denominator is the sample-derived speaker count, equal to the
numerator), whereas the claimed formula with the configured denominator
gives 50 — and the resulting progress sub-scores differ (70.09 vs 55.09). -/
theorem progress_participation_counterexample :
    participationFactor healthMessagesOneAgent = 100 ∧
    participationFactorClaimed healthMessagesOneAgent 2 = 50 ∧
    progressScore healthMessagesOneAgent = 7009/100 ∧
    progressScoreClaimed healthMessagesOneAgent 2 = 5509/100 ∧
    progressScore healthMessagesOneAgent
      ≠ progressScoreClaimed healthMessagesOneAgent 2 := by
  have hda : ((healthMessagesOneAgent.map HealthMessage.agent_name).dedup.length) = 1 := by
    decide
  have hpart : participationFactor healthMessagesOneAgent = 100 := by
    simp only [participationFactor, hda]
    norm_num
  have hclaim : participationFactorClaimed healthMessagesOneAgent 2 = 50 := by
    simp only [participationFactorClaimed, hda]
    norm_num
  have hwords : healthMessagesOneAgent.flatMap (fun m => splitWords (strLower m.content))
      = ["a", "b", "c", "d"] := by decide
  have hdw : ((["a", "b", "c", "d"] : List String).dedup.length) = 4 := by decide
  have hdiv : diversityFactor healthMessagesOneAgent = 100 := by
    simp only [diversityFactor, hwords, hdw]
    norm_num
  have hlens : healthMessagesOneAgent.map (fun m => ((m.content.length : ℚ)))
      = [3, 3] := by
    have h1 : (("a b" : String).length) = 3 := rfl
    have h2 : (("c d" : String).length) = 3 := rfl
    simp [healthMessagesOneAgent, h1, h2]
  have hlf : lengthFactor healthMessagesOneAgent = 3/10 := by
    simp only [lengthFactor, hlens]
    norm_num [ratSqrt_zero]
  have hne : healthMessagesOneAgent.isEmpty = false := rfl
  have hv1 : progressScore healthMessagesOneAgent = 7009/100 := by
    simp only [progressScore, hne, Bool.false_eq_true, if_false, hpart, hdiv, hlf]
    norm_num
  have hv2 : progressScoreClaimed healthMessagesOneAgent 2 = 5509/100 := by
    simp only [progressScoreClaimed, hne, Bool.false_eq_true, if_false, hclaim, hdiv, hlf]
    norm_num
  refine ⟨hpart, hclaim, hv1, hv2, ?_⟩
  rw [hv1, hv2]
  norm_num

/-- **C10 (amended).** For every non-empty message list the progress
sub-score equals 0.3·length_factor + 0.4·diversity_factor +
0.3·participation_factor clamped to [0,100], but the participation factor
is computed against the observed sample, not the configured participants —
so it is identically 100 and the participation term contributes the
constant 30. -/
theorem progress_participation_sample_based (messages : List HealthMessage)
    (h : messages ≠ []) :
    participationFactor messages = 100 ∧
    progressScore messages
      = min 100 (max 0 (lengthFactor messages * (3/10)
          + diversityFactor messages * (4/10) + 30)) := by
  have hmap : messages.map HealthMessage.agent_name ≠ [] := by
    simpa using h
  have hu : 1 ≤ (messages.map HealthMessage.agent_name).dedup.length :=
    dedup_length_pos hmap
  have hpart : participationFactor messages = 100 := by
    simp only [participationFactor]
    have hmax : max 1 (messages.map HealthMessage.agent_name).dedup.length
        = (messages.map HealthMessage.agent_name).dedup.length := by omega
    rw [hmax]
    have hz : (((messages.map HealthMessage.agent_name).dedup.length : ℕ) : ℚ) ≠ 0 := by
      exact_mod_cast Nat.one_le_iff_ne_zero.mp hu
    rw [div_self hz, one_mul]
    norm_num
  refine ⟨hpart, ?_⟩
  unfold progressScore
  rw [if_neg (by simpa [List.isEmpty_iff] using h), hpart]
  norm_num

/-- Witness for C10 (amended) at the concrete single-speaker sample. -/
theorem progress_participation_sample_based_witness :
    participationFactor healthMessagesOneAgent = 100 ∧
    progressScore healthMessagesOneAgent
      = min 100 (max 0 (lengthFactor healthMessagesOneAgent * (3/10)
          + diversityFactor healthMessagesOneAgent * (4/10) + 30)) :=
  progress_participation_sample_based healthMessagesOneAgent (by decide)

end Quorum
